import Mathlib

/-!
Verification of the annotation coordinate-transformation and export engine
of an iframe-based PDF viewer component (`src/components/Testing.tsx`).

The embedding works over `ℚ`: every quantity the component manipulates is a
JavaScript number, and all claims under study concern the exact arithmetic
of the algorithms (aspect-fit projection, centering offsets, color channel
normalization), not floating-point rounding.  Division in `ℚ` is total with
`q / 0 = 0`; where the source would produce `NaN`/`Infinity` (division by a
zero rendered size) the embedded function therefore still returns a point,
which faithfully reflects that the source performs the division unguarded.
-/

/-- A 2-D point, mirroring the source's `type Point = { x, y }`. -/
structure Point where
  x : ℚ
  y : ℚ
deriving DecidableEq, Repr

/-- The `scaledWidth` local of `transformCoordinates` (Testing.tsx
lines 231-239): starts at `overlayWidth` and is replaced by
`overlayHeight * pdfAspectRatio` when the overlay is relatively wider. -/
def scaledWidth (overlayWidth overlayHeight pdfWidth pdfHeight : ℚ) : ℚ :=
  if overlayWidth / overlayHeight > pdfWidth / pdfHeight then
    overlayHeight * (pdfWidth / pdfHeight)
  else
    overlayWidth

/-- The `scaledHeight` local of `transformCoordinates` (Testing.tsx
lines 231-239): starts at `overlayHeight` and is replaced by
`overlayWidth / pdfAspectRatio` in the other branch. -/
def scaledHeight (overlayWidth overlayHeight pdfWidth pdfHeight : ℚ) : ℚ :=
  if overlayWidth / overlayHeight > pdfWidth / pdfHeight then
    overlayHeight
  else
    overlayWidth / (pdfWidth / pdfHeight)

/-- Centering offset along x (Testing.tsx line 242). -/
def offsetX (overlayWidth overlayHeight pdfWidth pdfHeight : ℚ) : ℚ :=
  (overlayWidth - scaledWidth overlayWidth overlayHeight pdfWidth pdfHeight) / 2

/-- Centering offset along y (Testing.tsx line 243). -/
def offsetY (overlayWidth overlayHeight pdfWidth pdfHeight : ℚ) : ℚ :=
  (overlayHeight - scaledHeight overlayWidth overlayHeight pdfWidth pdfHeight) / 2

/-- The source's `transformCoordinates` (Testing.tsx lines 219-254): maps a
viewport point to document-native coordinates with aspect-fit scaling,
centering offsets and a vertical flip. -/
def transformCoordinates (point : Point)
    (overlayWidth overlayHeight pdfWidth pdfHeight : ℚ) (scale : ℚ) : Point :=
  let sw := scaledWidth overlayWidth overlayHeight pdfWidth pdfHeight
  let sh := scaledHeight overlayWidth overlayHeight pdfWidth pdfHeight
  let ox := offsetX overlayWidth overlayHeight pdfWidth pdfHeight
  let oy := offsetY overlayWidth overlayHeight pdfWidth pdfHeight
  let adjustedX := point.x - ox
  let adjustedY := point.y - oy
  { x := adjustedX / sw * pdfWidth * scale
    y := pdfHeight - adjustedY / sh * pdfHeight * scale }

/-- The spec's letterbox projection, written from the words of spec §4.2:
rendered size is `(viewportHeight * documentAspect, viewportHeight)` when
`viewportAspect > documentAspect`, else
`(viewportWidth, viewportWidth / documentAspect)`; offsets are half the
leftover; output is `((x - offsetX) / renderedWidth) * documentWidth * scale`
and `documentHeight - ((y - offsetY) / renderedHeight) * documentHeight * scale`. -/
def specLetterboxProject (p : Point)
    (viewportWidth viewportHeight documentWidth documentHeight : ℚ)
    (scale : ℚ) : Point :=
  let viewportAspect := viewportWidth / viewportHeight
  let documentAspect := documentWidth / documentHeight
  let rendered :=
    if viewportAspect > documentAspect then
      (viewportHeight * documentAspect, viewportHeight)
    else
      (viewportWidth, viewportWidth / documentAspect)
  let ox := (viewportWidth - rendered.1) / 2
  let oy := (viewportHeight - rendered.2) / 2
  { x := (p.x - ox) / rendered.1 * documentWidth * scale
    y := documentHeight - (p.y - oy) / rendered.2 * documentHeight * scale }

/-- C1: for every point and positive viewport/document dimensions and scale,
the source's `transformCoordinates` computes exactly the spec's letterbox
algorithm (rendered size by aspect comparison, half-leftover centering
offsets, scaled projection with vertical flip). -/
theorem transformCoordinates_eq_specLetterboxProject
    (p : Point) (vw vh dw dh s : ℚ)
    (hvw : 0 < vw) (hvh : 0 < vh) (hdw : 0 < dw) (hdh : 0 < dh) (hs : 0 < s) :
    transformCoordinates p vw vh dw dh s = specLetterboxProject p vw vh dw dh s := by
  simp only [transformCoordinates, specLetterboxProject, scaledWidth, scaledHeight,
    offsetX, offsetY]
  by_cases h : vw / vh > dw / dh <;> simp [h]

/-- Witness for C1 at a concrete geometry. -/
theorem transformCoordinates_eq_specLetterboxProject_witness :
    transformCoordinates ⟨1, 1⟩ 4 3 2 1 1 = specLetterboxProject ⟨1, 1⟩ 4 3 2 1 1 :=
  transformCoordinates_eq_specLetterboxProject ⟨1, 1⟩ 4 3 2 1 1
    (by norm_num) (by norm_num) (by norm_num) (by norm_num) (by norm_num)

/-- C3 (code bug evidence): with a degenerate overlay width of 0 the rendered
sizes are 0, yet `transformCoordinates` performs its divisions anyway and
returns an ordinary point — there is no `InvalidGeometry` failure path in the
code.  (In the total `ℚ` model division by zero gives 0, so the result is
`(0, 100)`; in JavaScript the same unguarded division yields non-finite
coordinates.) -/
theorem transformCoordinates_degenerate_unguarded :
    scaledWidth 0 100 100 100 = 0 ∧ scaledHeight 0 100 100 100 = 0 ∧
      transformCoordinates ⟨5, 5⟩ 0 100 100 100 1 = ⟨0, 100⟩ := by
  refine ⟨?_, ?_, ?_⟩ <;> norm_num [transformCoordinates, scaledWidth, scaledHeight,
    offsetX, offsetY]

/-- C5: when the viewport and document aspect ratios agree (all dimensions
positive), the projector maps `(0,0)` to `(0, documentHeight)` and
`(viewportWidth, viewportHeight)` to `(documentWidth, 0)` exactly, and both
centering offsets are zero. -/
theorem transformCoordinates_matching_aspect
    (vw vh dw dh : ℚ) (hvw : 0 < vw) (hvh : 0 < vh) (hdw : 0 < dw) (hdh : 0 < dh)
    (hasp : vw / vh = dw / dh) :
    offsetX vw vh dw dh = 0 ∧ offsetY vw vh dw dh = 0 ∧
      transformCoordinates ⟨0, 0⟩ vw vh dw dh 1 = ⟨0, dh⟩ ∧
      transformCoordinates ⟨vw, vh⟩ vw vh dw dh 1 = ⟨dw, 0⟩ := by
  have hvw0 : vw ≠ 0 := ne_of_gt hvw
  have hvh0 : vh ≠ 0 := ne_of_gt hvh
  have hdw0 : dw ≠ 0 := ne_of_gt hdw
  have hdh0 : dh ≠ 0 := ne_of_gt hdh
  have hnot : ¬ (vw / vh > dw / dh) := by rw [hasp]; exact lt_irrefl _
  have hsw : scaledWidth vw vh dw dh = vw := by simp [scaledWidth, hnot]
  have hsh : scaledHeight vw vh dw dh = vh := by
    have hcross : vw * dh = dw * vh := by
      field_simp at hasp
      linarith [hasp]
    simp only [scaledHeight, hnot, if_false, div_div_eq_mul_div]
    rw [div_eq_iff hdw0]
    linarith [hcross]
  have hox : offsetX vw vh dw dh = 0 := by simp [offsetX, hsw]
  have hoy : offsetY vw vh dw dh = 0 := by simp [offsetY, hsh]
  refine ⟨hox, hoy, ?_, ?_⟩
  · simp [transformCoordinates, hsw, hsh, hox, hoy]
  · simp only [transformCoordinates, hsw, hsh, hox, hoy]
    have h1 : vw - 0 = vw := by ring
    have h2 : vh - 0 = vh := by ring
    simp only [h1, h2, div_self hvw0, div_self hvh0]
    congr 1 <;> ring

/-- Witness for C5: a 2:1 viewport over a 2:1 document page. -/
theorem transformCoordinates_matching_aspect_witness :
    offsetX 200 100 50 25 = 0 ∧ offsetY 200 100 50 25 = 0 ∧
      transformCoordinates ⟨0, 0⟩ 200 100 50 25 1 = ⟨0, 25⟩ ∧
      transformCoordinates ⟨200, 100⟩ 200 100 50 25 1 = ⟨50, 0⟩ :=
  transformCoordinates_matching_aspect 200 100 50 25
    (by norm_num) (by norm_num) (by norm_num) (by norm_num) (by norm_num)

/-- C6: with a 200×100 viewport over a 100×100 page, the rendered width is
100, the x centering offset is 50, and viewport point `(50, 0)` projects to
document point `(0, 100)`. -/
theorem transformCoordinates_letterbox_example :
    scaledWidth 200 100 100 100 = 100 ∧ offsetX 200 100 100 100 = 50 ∧
      transformCoordinates ⟨50, 0⟩ 200 100 100 100 1 = ⟨0, 100⟩ := by
  refine ⟨?_, ?_, ?_⟩ <;> norm_num [transformCoordinates, scaledWidth, scaledHeight,
    offsetX, offsetY]

/-- Value of one hexadecimal digit character, as `parseInt`'s base-16 digit
reading understands it (both letter cases); `none` for a non-digit. -/
def hexDigitValue (c : Char) : Option ℕ :=
  if '0' ≤ c ∧ c ≤ '9' then some (c.toNat - 48)
  else if 'a' ≤ c ∧ c ≤ 'f' then some (c.toNat - 97 + 10)
  else if 'A' ≤ c ∧ c ≤ 'F' then some (c.toNat - 65 + 10)
  else none

/-- Accumulating loop of base-16 digit parsing: consumes the maximal prefix
of hex digits, as `parseInt(s, 16)` does after its first digit. -/
def parseHexPrefix : List Char → ℕ → ℕ
  | [], acc => acc
  | c :: cs, acc =>
    match hexDigitValue c with
    | some v => parseHexPrefix cs (acc * 16 + v)
    | none => acc

/-- JavaScript's `parseInt(s, 16)` on the strings this component feeds it
(two-character substrings of the color string): the maximal hex-digit prefix
is parsed, and a string with no leading hex digit yields `none` (modelling
`NaN`; `parseInt`'s whitespace/sign/`0x` skipping never arises here). -/
def parseIntHex : List Char → Option ℕ
  | [] => none
  | c :: cs =>
    match hexDigitValue c with
    | some v => some (parseHexPrefix cs v)
    | none => none

/-- JavaScript's `hex.replace('#', '')`: removes the first occurrence of
`'#'`, if any. -/
def removeFirstHash : List Char → List Char
  | [] => []
  | c :: cs => if c = '#' then cs else c :: removeFirstHash cs

/-- A normalized RGB triple as returned by `hexToRgb`; each channel is
`none` when the corresponding `parseInt` produced `NaN`. -/
structure Rgb where
  r : Option ℚ
  g : Option ℚ
  b : Option ℚ
deriving DecidableEq, Repr

/-- The source's `hexToRgb` (Testing.tsx lines 206-216): strip the `#`, parse
the three two-character hex substrings, divide each by 255. -/
def hexToRgb (hex : List Char) : Rgb :=
  let h := removeFirstHash hex
  { r := (parseIntHex ((h.drop 0).take 2)).map (fun n => (n : ℚ) / 255)
    g := (parseIntHex ((h.drop 2).take 2)).map (fun n => (n : ℚ) / 255)
    b := (parseIntHex ((h.drop 4).take 2)).map (fun n => (n : ℚ) / 255) }

/-- Stripping the hash from a string that starts with one. -/
theorem removeFirstHash_hash (l : List Char) : removeFirstHash ('#' :: l) = l := by
  simp [removeFirstHash]

/-- C8: on a canonical `#RRGGBB` string each channel is the parsed byte
divided by 255; in particular `#FF0000`, `#000000` and `#FFFFFF` map to
`(1,0,0)`, `(0,0,0)` and `(1,1,1)`. -/
theorem hexToRgb_canonical :
    (∀ (c1 c2 c3 c4 c5 c6 : Char) (v1 v2 v3 v4 v5 v6 : ℕ),
      hexDigitValue c1 = some v1 → hexDigitValue c2 = some v2 →
      hexDigitValue c3 = some v3 → hexDigitValue c4 = some v4 →
      hexDigitValue c5 = some v5 → hexDigitValue c6 = some v6 →
      hexToRgb ['#', c1, c2, c3, c4, c5, c6] =
        ⟨some (((16 * v1 + v2 : ℕ) : ℚ) / 255), some (((16 * v3 + v4 : ℕ) : ℚ) / 255),
          some (((16 * v5 + v6 : ℕ) : ℚ) / 255)⟩) ∧
    hexToRgb ['#', 'F', 'F', '0', '0', '0', '0'] = ⟨some 1, some 0, some 0⟩ ∧
    hexToRgb ['#', '0', '0', '0', '0', '0', '0'] = ⟨some 0, some 0, some 0⟩ ∧
    hexToRgb ['#', 'F', 'F', 'F', 'F', 'F', 'F'] = ⟨some 1, some 1, some 1⟩ := by
  have hchan : ∀ (a b : Char) (va vb : ℕ), hexDigitValue a = some va →
      hexDigitValue b = some vb →
      (parseIntHex [a, b]).map (fun n => (n : ℚ) / 255) =
        some (((16 * va + vb : ℕ) : ℚ) / 255) := by
    intro a b va vb ha hb
    simp [parseIntHex, parseHexPrefix, ha, hb]
    ring
  have hgen : ∀ (c1 c2 c3 c4 c5 c6 : Char) (v1 v2 v3 v4 v5 v6 : ℕ),
      hexDigitValue c1 = some v1 → hexDigitValue c2 = some v2 →
      hexDigitValue c3 = some v3 → hexDigitValue c4 = some v4 →
      hexDigitValue c5 = some v5 → hexDigitValue c6 = some v6 →
      hexToRgb ['#', c1, c2, c3, c4, c5, c6] =
        ⟨some (((16 * v1 + v2 : ℕ) : ℚ) / 255), some (((16 * v3 + v4 : ℕ) : ℚ) / 255),
          some (((16 * v5 + v6 : ℕ) : ℚ) / 255)⟩ := by
    intro c1 c2 c3 c4 c5 c6 v1 v2 v3 v4 v5 v6 h1 h2 h3 h4 h5 h6
    simp only [hexToRgb, removeFirstHash_hash, List.drop_zero]
    rw [show List.take 2 [c1, c2, c3, c4, c5, c6] = [c1, c2] from rfl,
      show List.take 2 (List.drop 2 [c1, c2, c3, c4, c5, c6]) = [c3, c4] from rfl,
      show List.take 2 (List.drop 4 [c1, c2, c3, c4, c5, c6]) = [c5, c6] from rfl,
      hchan c1 c2 v1 v2 h1 h2, hchan c3 c4 v3 v4 h3 h4, hchan c5 c6 v5 v6 h5 h6]
  refine ⟨hgen, ?_, ?_, ?_⟩
  · rw [hgen 'F' 'F' '0' '0' '0' '0' 15 15 0 0 0 0
      (by decide) (by decide) (by decide) (by decide) (by decide) (by decide)]
    norm_num
  · rw [hgen '0' '0' '0' '0' '0' '0' 0 0 0 0 0 0
      (by decide) (by decide) (by decide) (by decide) (by decide) (by decide)]
    norm_num
  · rw [hgen 'F' 'F' 'F' 'F' 'F' 'F' 15 15 15 15 15 15
      (by decide) (by decide) (by decide) (by decide) (by decide) (by decide)]
    norm_num

/-- The annotation model (Testing.tsx lines 10-32): a tagged union over
highlight, freehand-draw and text variants, each carrying a page index,
geometry in viewport coordinates, and a hex color string. -/
inductive Annot
  | highlight (page : ℕ) (start finish : Point) (color : List Char)
  | draw (page : ℕ) (points : List Point) (color : List Char) (width : ℚ)
  | text (page : ℕ) (position : Point) (content : List Char) (color : List Char)
deriving DecidableEq, Repr

/-- Page index of an annotation. -/
def Annot.page : Annot → ℕ
  | .highlight p _ _ _ => p
  | .draw p _ _ _ => p
  | .text p _ _ _ => p

/-- The rectangle drawn for a highlight by `page.drawRectangle`
(Testing.tsx lines 300-307): position, size, fill color and opacity. -/
structure DrawnRect where
  x : ℚ
  y : ℚ
  width : ℚ
  height : ℚ
  color : Rgb
  opacity : ℚ
deriving DecidableEq, Repr

/-- Export of one highlight annotation (Testing.tsx lines 281-308): project
both corners, then draw at the min corner with absolute-value extents and
fixed opacity 0.35. -/
def exportHighlight (start finish : Point) (color : List Char)
    (overlayWidth overlayHeight pdfWidth pdfHeight scale : ℚ) : DrawnRect :=
  let c := hexToRgb color
  let s := transformCoordinates start overlayWidth overlayHeight pdfWidth pdfHeight scale
  let e := transformCoordinates finish overlayWidth overlayHeight pdfWidth pdfHeight scale
  { x := min s.x e.x
    y := min s.y e.y
    width := |e.x - s.x|
    height := |e.y - s.y|
    color := c
    opacity := 35 / 100 }

/-- C4: exporting a highlight is order-independent in its two corners — for
every pair of corner points, geometry and color the drawn rectangle (its
position, size, color and opacity) is identical when the corners are
swapped; in particular so for corners `(10,10)` and `(50,40)`. -/
theorem exportHighlight_corner_order_independent :
    (∀ (a b : Point) (color : List Char) (vw vh dw dh s : ℚ),
      exportHighlight a b color vw vh dw dh s = exportHighlight b a color vw vh dw dh s) ∧
    (∀ (color : List Char) (vw vh dw dh s : ℚ),
      exportHighlight ⟨10, 10⟩ ⟨50, 40⟩ color vw vh dw dh s =
        exportHighlight ⟨50, 40⟩ ⟨10, 10⟩ color vw vh dw dh s) := by
  have hgen : ∀ (a b : Point) (color : List Char) (vw vh dw dh s : ℚ),
      exportHighlight a b color vw vh dw dh s = exportHighlight b a color vw vh dw dh s := by
    intro a b color vw vh dw dh s
    simp [exportHighlight, min_comm, abs_sub_comm]
  exact ⟨hgen, fun color vw vh dw dh s => hgen ⟨10, 10⟩ ⟨50, 40⟩ color vw vh dw dh s⟩

/-- A primitive drawing operation recorded onto the page during export:
a highlight rectangle, a text run, or one polyline segment drawn by
`page.drawLine`. -/
inductive DrawOp
  | rect (r : DrawnRect)
  | textRun (x y size : ℚ) (content : List Char) (color : Rgb)
  | line (start finish : Point) (thickness : ℚ) (color : Rgb)
deriving DecidableEq, Repr

/-- The freehand-draw export loop (Testing.tsx lines 334-359): walk the
points, keep the previously transformed point in `lastPoint`, and emit a
`drawLine` for each point that has a predecessor. -/
def drawSegLoop (lastPoint : Option Point) (points : List Point)
    (thickness : ℚ) (color : Rgb)
    (overlayWidth overlayHeight pdfWidth pdfHeight scale : ℚ) : List DrawOp :=
  match points with
  | [] => []
  | point :: rest =>
    let tp := transformCoordinates point overlayWidth overlayHeight pdfWidth pdfHeight scale
    match lastPoint with
    | none => drawSegLoop (some tp) rest thickness color
        overlayWidth overlayHeight pdfWidth pdfHeight scale
    | some lp => DrawOp.line lp tp thickness color ::
        drawSegLoop (some tp) rest thickness color
          overlayWidth overlayHeight pdfWidth pdfHeight scale

/-- Export of one freehand-draw annotation (Testing.tsx lines 334-359):
segments between consecutive projected points, thickness scaled by the
page/viewport width ratio. -/
def exportDrawSegments (points : List Point) (color : List Char) (width : ℚ)
    (overlayWidth overlayHeight pdfWidth pdfHeight scale : ℚ) : List DrawOp :=
  drawSegLoop none points (width * pdfWidth / overlayWidth) (hexToRgb color)
    overlayWidth overlayHeight pdfWidth pdfHeight scale

/-- Once a last point is held, the loop emits exactly one segment per
remaining point. -/
theorem drawSegLoop_some_length (points : List Point) :
    ∀ (lp : Point) (th : ℚ) (c : Rgb) (vw vh dw dh s : ℚ),
      (drawSegLoop (some lp) points th c vw vh dw dh s).length = points.length := by
  induction points with
  | nil => intro lp th c vw vh dw dh s; rfl
  | cons p rest ih =>
    intro lp th c vw vh dw dh s
    simp only [drawSegLoop, List.length_cons]
    rw [ih]

/-- C7: a freehand path of n points exports exactly n - 1 line segments
(so a single-point path draws nothing), for every color, stroke width and
geometry. -/
theorem exportDrawSegments_count :
    (∀ (points : List Point) (color : List Char) (w vw vh dw dh s : ℚ),
      (exportDrawSegments points color w vw vh dw dh s).length = points.length - 1) ∧
    (∀ (p : Point) (color : List Char) (w vw vh dw dh s : ℚ),
      exportDrawSegments [p] color w vw vh dw dh s = []) := by
  constructor
  · intro points color w vw vh dw dh s
    cases points with
    | nil => rfl
    | cons p rest =>
      simp only [exportDrawSegments, drawSegLoop, List.length_cons]
      rw [drawSegLoop_some_length]
      simp
  · intro p color w vw vh dw dh s
    rfl

/-- The export of one text annotation (Testing.tsx lines 311-332): project
the position and draw the text with size `12 * pdfWidth / overlayWidth`. -/
def exportText (position : Point) (content : List Char) (color : List Char)
    (overlayWidth overlayHeight pdfWidth pdfHeight scale : ℚ) : DrawOp :=
  let c := hexToRgb color
  let p := transformCoordinates position overlayWidth overlayHeight pdfWidth pdfHeight scale
  DrawOp.textRun p.x p.y (12 * pdfWidth / overlayWidth) content c

/-- The first page of the loaded document: its native size plus the drawing
operations composited onto it. -/
structure PdfPage where
  pdfWidth : ℚ
  pdfHeight : ℚ
  ops : List DrawOp
deriving DecidableEq, Repr

/-- One iteration of the export loop over annotations
(Testing.tsx lines 279-361): append this annotation's drawing operations to
the page. -/
def renderAnnot (overlayWidth overlayHeight scale : ℚ) (page : PdfPage)
    (a : Annot) : PdfPage :=
  match a with
  | .highlight _ start finish color =>
      { page with ops := page.ops ++
          [DrawOp.rect (exportHighlight start finish color
            overlayWidth overlayHeight page.pdfWidth page.pdfHeight scale)] }
  | .draw _ points color width =>
      { page with ops := page.ops ++
          (exportDrawSegments points color width
            overlayWidth overlayHeight page.pdfWidth page.pdfHeight scale) }
  | .text _ position content color =>
      { page with ops := page.ops ++
          [exportText position content color
            overlayWidth overlayHeight page.pdfWidth page.pdfHeight scale] }

/-- The fallible body of `downloadAnnotatedPDF` (Testing.tsx lines 258-373):
fetch the source bytes, load the document and take its first page, compute
the fit scale, composite every annotation, then serialize.  The fetch result
and the load/save collaborators are explicit parameters returning `none` on
failure, modelling the awaited steps that can throw. -/
def exportCore (fetchResult : Option (List ℕ))
    (load : List ℕ → Option PdfPage) (save : PdfPage → Option (List ℕ))
    (overlayWidth overlayHeight : ℚ) (annotations : List Annot) : Option (List ℕ) :=
  match fetchResult with
  | none => none
  | some bytes =>
    match load bytes with
    | none => none
    | some page =>
      let scale := min (overlayWidth / page.pdfWidth) (overlayHeight / page.pdfHeight)
      save (annotations.foldl (renderAnnot overlayWidth overlayHeight scale) page)

/-- The source's `downloadAnnotatedPDF` with its surrounding `try`/`catch`
(Testing.tsx lines 256-377): any failure inside the body is caught and
logged, so the call always returns; the function never writes the annotation
state, which is returned unchanged alongside the produced bytes (if any). -/
def downloadAnnotatedPDF (fetchResult : Option (List ℕ))
    (load : List ℕ → Option PdfPage) (save : PdfPage → Option (List ℕ))
    (overlayWidth overlayHeight : ℚ) (annotations : List Annot) :
    Option (List ℕ) × List Annot :=
  match exportCore fetchResult load save overlayWidth overlayHeight annotations with
  | some out => (some out, annotations)
  | none => (none, annotations)

/-- C2: the export is all-or-nothing — the annotation sequence is returned
unchanged by every export call, and whenever any step (fetch, load, or save)
fails the caught failure yields no output bytes at all. -/
theorem downloadAnnotatedPDF_all_or_nothing
    (fetchResult : Option (List ℕ)) (load : List ℕ → Option PdfPage)
    (save : PdfPage → Option (List ℕ)) (vw vh : ℚ) (annotations : List Annot) :
    (downloadAnnotatedPDF fetchResult load save vw vh annotations).2 = annotations ∧
    (exportCore fetchResult load save vw vh annotations = none →
      downloadAnnotatedPDF fetchResult load save vw vh annotations =
        (none, annotations)) := by
  constructor
  · unfold downloadAnnotatedPDF
    cases h : exportCore fetchResult load save vw vh annotations <;> rfl
  · intro hfail
    unfold downloadAnnotatedPDF
    rw [hfail]

/-- Witness for C2: a failing fetch produces no bytes and leaves a singleton
annotation list unchanged. -/
theorem downloadAnnotatedPDF_all_or_nothing_witness :
    (downloadAnnotatedPDF none (fun _ => none) (fun _ => none) 100 100
        [Annot.highlight 1 ⟨1, 2⟩ ⟨3, 4⟩ ['#', 'F', 'F', '0', '0', '0', '0']]).2 =
      [Annot.highlight 1 ⟨1, 2⟩ ⟨3, 4⟩ ['#', 'F', 'F', '0', '0', '0', '0']] ∧
    downloadAnnotatedPDF none (fun _ => none) (fun _ => none) 100 100
        [Annot.highlight 1 ⟨1, 2⟩ ⟨3, 4⟩ ['#', 'F', 'F', '0', '0', '0', '0']] =
      (none, [Annot.highlight 1 ⟨1, 2⟩ ⟨3, 4⟩ ['#', 'F', 'F', '0', '0', '0', '0']]) := by
  have h := downloadAnnotatedPDF_all_or_nothing none (fun _ => none) (fun _ => none)
    100 100 [Annot.highlight 1 ⟨1, 2⟩ ⟨3, 4⟩ ['#', 'F', 'F', '0', '0', '0', '0']]
  exact ⟨h.1, h.2 rfl⟩

/-- The tool modes (Testing.tsx lines 53-55). -/
inductive Tool
  | select
  | draw
  | highlight
  | text
deriving DecidableEq, Repr

/-- The component state read and written by the capture handlers
(Testing.tsx lines 42-66): tool mode, in-progress draw path and highlight
corners, the committed annotation sequence, the active color, and the text
modal's state. -/
structure CaptureState where
  currentTool : Tool
  isDrawing : Bool
  currentPath : List Point
  currentDrawing : List Point
  highlightInfo : Option (Point × Point)
  currentHighlight : Option (Point × Point)
  annotations : List Annot
  annotationColor : List Char
  isModalOpen : Bool
  modalText : List Char
  modalPosition : Option Point
deriving DecidableEq, Repr

/-- The source's `handleMouseDown` (Testing.tsx lines 105-131), with the
overlay-relative point already computed. -/
def handleMouseDown (s : CaptureState) (point : Point) : CaptureState :=
  match s.currentTool with
  | Tool.draw =>
      { s with isDrawing := true, currentPath := [point], currentDrawing := [point] }
  | Tool.highlight =>
      { s with highlightInfo := some (point, point),
               currentHighlight := some (point, point) }
  | Tool.text =>
      { s with modalPosition := some point, isModalOpen := true }
  | Tool.select => s

/-- The source's `handleMouseMove` (Testing.tsx lines 133-153): extend the
in-progress path while drawing, or move the in-progress highlight's current
corner. -/
def handleMouseMove (s : CaptureState) (point : Point) : CaptureState :=
  let s1 :=
    if s.currentTool = Tool.draw ∧ s.isDrawing then
      { s with currentDrawing := s.currentDrawing ++ [point],
               currentPath := s.currentPath ++ [point] }
    else s
  if s.currentTool = Tool.highlight ∧ s.highlightInfo.isSome then
    { s1 with currentHighlight := s1.currentHighlight.map (fun h => (h.1, point)),
              highlightInfo := s1.highlightInfo.map (fun h => (h.1, point)) }
  else s1

/-- The source's `handleMouseUp` (Testing.tsx lines 155-184): commit the
in-progress draw path (page 1, stroke width 2) or the in-progress highlight
(page 1, corners `start` and `current`), appending to the annotation
sequence. -/
def handleMouseUp (s : CaptureState) : CaptureState :=
  let s1 :=
    if s.currentTool = Tool.draw ∧ s.isDrawing then
      { s with
          annotations := s.annotations ++ [Annot.draw 1 s.currentPath s.annotationColor 2],
          isDrawing := false,
          currentPath := [] }
    else s
  match s.currentTool, s.highlightInfo with
  | Tool.highlight, some hi =>
      { s1 with
          annotations := s1.annotations ++ [Annot.highlight 1 hi.1 hi.2 s.annotationColor],
          highlightInfo := none }
  | _, _ => s1

/-- The source's `handleModalSubmit` (Testing.tsx lines 186-202): with
non-empty text and a recorded position, commit a text annotation (page 1)
and reset the modal. -/
def handleModalSubmit (s : CaptureState) : CaptureState :=
  match s.modalPosition with
  | some pos =>
      if s.modalText ≠ [] then
        { s with
            annotations := s.annotations ++
              [Annot.text 1 pos s.modalText s.annotationColor],
            isModalOpen := false,
            modalText := [],
            modalPosition := none }
      else s
  | none => s

/-- The operations that can touch the annotation sequence, as wired in the
component: the overlay's mouse events (Testing.tsx lines 420-423, where
`onMouseLeave` is bound to `handleMouseUp`), the text modal confirmation,
and the Clear All button (line 539). -/
inductive UIEvent
  | mouseDown (p : Point)
  | mouseMove (p : Point)
  | mouseUp
  | mouseLeave
  | modalSubmit
  | clearAll

/-- Dispatch of one event to its handler, as wired in the JSX. -/
def step (s : CaptureState) (e : UIEvent) : CaptureState :=
  match e with
  | .mouseDown p => handleMouseDown s p
  | .mouseMove p => handleMouseMove s p
  | .mouseUp => handleMouseUp s
  | .mouseLeave => handleMouseUp s
  | .modalSubmit => handleModalSubmit s
  | .clearAll => { s with annotations := [] }

/-- C9: gesture abort (the pointer leaving the overlay) runs exactly the
gesture-end handler, so it produces the identical state; in particular an
in-progress draw or highlight is finalized into the committed sequence, not
discarded. -/
theorem step_mouseLeave_eq_mouseUp :
    (∀ s : CaptureState, step s UIEvent.mouseLeave = step s UIEvent.mouseUp) ∧
    (∀ s : CaptureState, s.currentTool = Tool.draw → s.isDrawing = true →
      (step s UIEvent.mouseLeave).annotations =
        s.annotations ++ [Annot.draw 1 s.currentPath s.annotationColor 2]) ∧
    (∀ (s : CaptureState) (st cur : Point), s.currentTool = Tool.highlight →
      s.highlightInfo = some (st, cur) →
      (step s UIEvent.mouseLeave).annotations =
        s.annotations ++ [Annot.highlight 1 st cur s.annotationColor]) := by
  refine ⟨fun s => rfl, ?_, ?_⟩
  · intro s h1 h2
    simp [step, handleMouseUp, h1, h2]
  · intro s st cur h1 h2
    simp [step, handleMouseUp, h1, h2]

/-- Witness for C9: aborting an in-progress highlight commits it. -/
theorem step_mouseLeave_eq_mouseUp_witness :
    (step
        ⟨Tool.highlight, false, [], [], some (⟨1, 2⟩, ⟨3, 4⟩), some (⟨1, 2⟩, ⟨3, 4⟩),
          [], ['#', 'F', 'F', '0', '0', '0', '0'], false, [], none⟩
        UIEvent.mouseLeave).annotations =
      [] ++ [Annot.highlight 1 ⟨1, 2⟩ ⟨3, 4⟩ ['#', 'F', 'F', '0', '0', '0', '0']] :=
  step_mouseLeave_eq_mouseUp.2.2
    ⟨Tool.highlight, false, [], [], some (⟨1, 2⟩, ⟨3, 4⟩), some (⟨1, 2⟩, ⟨3, 4⟩),
      [], ['#', 'F', 'F', '0', '0', '0', '0'], false, [], none⟩
    ⟨1, 2⟩ ⟨3, 4⟩ rfl rfl

/-- The mouse-down handler never touches the committed sequence. -/
theorem handleMouseDown_annotations (s : CaptureState) (p : Point) :
    (handleMouseDown s p).annotations = s.annotations := by
  unfold handleMouseDown
  cases s.currentTool <;> rfl

/-- The mouse-move handler never touches the committed sequence. -/
theorem handleMouseMove_annotations (s : CaptureState) (p : Point) :
    (handleMouseMove s p).annotations = s.annotations := by
  unfold handleMouseMove
  split <;> split <;> rfl

/-- Anything the mouse-up handler adds to the committed sequence has
page index 1. -/
theorem handleMouseUp_mem_annotations (s : CaptureState) (a : Annot)
    (ha : a ∈ (handleMouseUp s).annotations) :
    a ∈ s.annotations ∨ a.page = 1 := by
  simp only [handleMouseUp] at ha
  split at ha
  · simp only [List.mem_append, List.mem_singleton] at ha
    rcases ha with ha | ha
    · split at ha
      · simp only [List.mem_append, List.mem_singleton] at ha
        rcases ha with ha | ha
        · exact Or.inl ha
        · exact Or.inr (by rw [ha]; rfl)
      · exact Or.inl ha
    · exact Or.inr (by rw [ha]; rfl)
  · split at ha
    · simp only [List.mem_append, List.mem_singleton] at ha
      rcases ha with ha | ha
      · exact Or.inl ha
      · exact Or.inr (by rw [ha]; rfl)
    · exact Or.inl ha

/-- Anything the modal confirmation adds to the committed sequence has
page index 1. -/
theorem handleModalSubmit_mem_annotations (s : CaptureState) (a : Annot)
    (ha : a ∈ (handleModalSubmit s).annotations) :
    a ∈ s.annotations ∨ a.page = 1 := by
  simp only [handleModalSubmit] at ha
  split at ha
  · split at ha
    · simp only [List.mem_append, List.mem_singleton] at ha
      rcases ha with ha | ha
      · exact Or.inl ha
      · exact Or.inr (by rw [ha]; rfl)
    · exact Or.inl ha
  · exact Or.inl ha

/-- C10: every annotation present after any state-machine event was either
already committed or carries page index 1 — no operation of the component
can commit an annotation targeting any other page. -/
theorem step_commits_only_page_one (s : CaptureState) (e : UIEvent) (a : Annot)
    (ha : a ∈ (step s e).annotations) : a ∈ s.annotations ∨ a.page = 1 := by
  cases e with
  | mouseDown p =>
      rw [step, handleMouseDown_annotations] at ha
      exact Or.inl ha
  | mouseMove p =>
      rw [step, handleMouseMove_annotations] at ha
      exact Or.inl ha
  | mouseUp => exact handleMouseUp_mem_annotations s a ha
  | mouseLeave => exact handleMouseUp_mem_annotations s a ha
  | modalSubmit => exact handleModalSubmit_mem_annotations s a ha
  | clearAll => simp [step] at ha

/-- Witness for C10: the highlight committed by a mouse-up lands on page 1. -/
theorem step_commits_only_page_one_witness :
    Annot.highlight 1 ⟨5, 6⟩ ⟨7, 8⟩ ['#', '0', '0', 'F', 'F', '0', '0'] ∈
        ([] : List Annot) ∨
      (Annot.highlight 1 ⟨5, 6⟩ ⟨7, 8⟩ ['#', '0', '0', 'F', 'F', '0', '0']).page = 1 :=
  step_commits_only_page_one
    ⟨Tool.highlight, false, [], [], some (⟨5, 6⟩, ⟨7, 8⟩), some (⟨5, 6⟩, ⟨7, 8⟩),
      [], ['#', '0', '0', 'F', 'F', '0', '0'], false, [], none⟩
    UIEvent.mouseUp
    (Annot.highlight 1 ⟨5, 6⟩ ⟨7, 8⟩ ['#', '0', '0', 'F', 'F', '0', '0'])
    (by decide)

/-- Witness for C8: the general byte formula applied to `#AB12CD`. -/
theorem hexToRgb_canonical_witness :
    hexToRgb ['#', 'A', 'B', '1', '2', 'C', 'D'] =
      ⟨some (171 / 255), some (18 / 255), some (205 / 255)⟩ := by
  rw [hexToRgb_canonical.1 'A' 'B' '1' '2' 'C' 'D' 10 11 1 2 12 13
    (by decide) (by decide) (by decide) (by decide) (by decide) (by decide)]
  norm_num
